import Mathlib

set_option maxRecDepth 16384

/-!
Verification of the speculative epoll poller (src/src/ev_sepoll.c).

The poller's state is embedded shallowly: the per-fd record `fdtab` is a
function from fd numbers to `FdEntry`, the update list `fd_updt` (with its
counter `fd_nbupdt`) is a `List Nat`, and the speculative list `fd_spec`
(with `fd_nbspec`) is a `List Nat` whose length plays the role of the
counter.  Kernel interest-set mutations (`epoll_ctl` calls) are collected
as explicit `EpollOp` values instead of being performed.  I/O callbacks
(`iocb`) are arbitrary state transformers passed as parameters.
-/

/-! ### Constants

The numeric constants come from the repository headers (include/types/fd.h,
include/common/epoll.h, include/common/ticks.h), which are not part of
src/.  Their values are forced by the way src/src/ev_sepoll.c uses them:
`__fd_is_set` extracts a direction's status as `(spec_e >> dir) & FD_EV_STATUS`
with `dir` in {0,1}, so the two status bits of the two directions are
interleaved: ACTIVE = bit 0, POLLED = bit 2, and the WRITE direction is one
bit to the left of READ. -/

def DIR_RD : Nat := 0
def DIR_WR : Nat := 1

def FD_EV_ACTIVE : Nat := 1
def FD_EV_POLLED : Nat := 4
def FD_EV_STATUS : Nat := FD_EV_ACTIVE ||| FD_EV_POLLED

def FD_EV_ACTIVE_R : Nat := FD_EV_ACTIVE <<< DIR_RD
def FD_EV_ACTIVE_W : Nat := FD_EV_ACTIVE <<< DIR_WR
def FD_EV_ACTIVE_RW : Nat := FD_EV_ACTIVE_R ||| FD_EV_ACTIVE_W
def FD_EV_POLLED_R : Nat := FD_EV_POLLED <<< DIR_RD
def FD_EV_POLLED_W : Nat := FD_EV_POLLED <<< DIR_WR
def FD_EV_POLLED_RW : Nat := FD_EV_POLLED_R ||| FD_EV_POLLED_W
def FD_EV_STATUS_R : Nat := FD_EV_STATUS <<< DIR_RD
def FD_EV_STATUS_W : Nat := FD_EV_STATUS <<< DIR_WR
def FD_EV_CURR_MASK : Nat := 0x0F
def FD_EV_PREV_MASK : Nat := 0xF0

def FD_POLL_IN : Nat := 0x01
def FD_POLL_PRI : Nat := 0x02
def FD_POLL_OUT : Nat := 0x04
def FD_POLL_ERR : Nat := 0x08
def FD_POLL_HUP : Nat := 0x10
def FD_POLL_STICKY : Nat := FD_POLL_ERR ||| FD_POLL_HUP

def EPOLLIN : Nat := 0x001
def EPOLLPRI : Nat := 0x002
def EPOLLOUT : Nat := 0x004
def EPOLLERR : Nat := 0x008
def EPOLLHUP : Nat := 0x010

def MAX_DELAY_MS : Nat := 60000

/-! ### State -/

/-- One entry of `fdtab`, restricted to the fields src/src/ev_sepoll.c reads
or writes.  `spec_e` is the packed 8-bit status byte (low nibble: current
events, high nibble: previous events); `fnew` embeds the one-bit field
called `new` in the C struct, `updated` the field of the same name.
`owner` is the presence of the owner pointer, `iocb` the presence of the
I/O callback pointer. -/
structure FdEntry where
  owner : Bool
  iocb : Bool
  spec_e : Nat
  ev : Nat
  updated : Bool
  fnew : Bool
deriving Repr, DecidableEq

/-- The poller-visible global state: the fd table and the two lists.
`fd_nbupdt` is `fd_updt.length`, `fd_nbspec` is `fd_spec.length`. -/
structure PState where
  fdtab : Nat → FdEntry
  fd_updt : List Nat
  fd_spec : List Nat

/-- Point-update of the fd table. -/
def PState.modifyFd (st : PState) (fd : Nat) (f : FdEntry → FdEntry) : PState :=
  { st with fdtab := fun i => if i = fd then f (st.fdtab i) else st.fdtab i }

/-! ### Spec-list and update-list helpers

These helpers live in include/proto/fd.h, which is not under src/; they are
modelled from the spec. -/

/-- Modelled from the spec: `alloc_spec_entry(fd)` (include/proto/fd.h, not
under src/) allocates a SpecList entry for `fd` if absent; the SpecList is a
dense sequence, so allocation appends. -/
def allocSpecList (l : List Nat) (fd : Nat) : List Nat :=
  if fd ∈ l then l else l ++ [fd]

/-- Modelled from the spec: `release_spec_entry(fd)` (include/proto/fd.h, not
under src/) removes `fd` from the SpecList by O(1) swap-with-last: the last
entry is moved into the removed slot and the list shrinks by one; if `fd`
has no entry it does nothing. -/
def releaseSpecList (l : List Nat) (fd : Nat) : List Nat :=
  if fd ∈ l then
    (l.set (List.indexOf fd l) (l.getD (l.length - 1) 0)).dropLast
  else l

/-- Modelled from the spec: `updt_fd(fd)` (include/proto/fd.h, not under
src/) appends `fd` to the UpdateList iff `updated` is false, then sets
`updated`. -/
def updt_fd (st : PState) (fd : Nat) : PState :=
  if (st.fdtab fd).updated then st
  else
    { st.modifyFd fd (fun e => { e with updated := true }) with
      fd_updt := st.fd_updt ++ [fd] }

/-! ### The fd-state primitives (src/src/ev_sepoll.c, lines 47-135) -/

/-- `__fd_is_set(fd, dir)` (lines 47-56): the direction's status bits. -/
def fd_is_set (st : PState) (fd dir : Nat) : Nat :=
  ((st.fdtab fd).spec_e >>> dir) &&& FD_EV_STATUS

/-- `__fd_wai(fd, dir)` (lines 62-78): if the direction is already exactly
POLLED, return; otherwise enqueue an update entry and XOR the direction's
bits to exactly POLLED. -/
def fd_wai (st : PState) (fd dir : Nat) : PState :=
  let i := ((st.fdtab fd).spec_e >>> dir) &&& FD_EV_STATUS
  if i = FD_EV_POLLED then st
  else
    (updt_fd st fd).modifyFd fd
      (fun e => { e with spec_e := e.spec_e ^^^ ((i ^^^ FD_EV_POLLED) <<< dir) })

/-- `__fd_set(fd, dir)` (lines 80-100): if ACTIVE is already set, return;
otherwise enqueue an update entry and OR in the ACTIVE bit (POLLED is
deliberately not cleared). -/
def fd_set (st : PState) (fd dir : Nat) : PState :=
  let i := ((st.fdtab fd).spec_e >>> dir) &&& FD_EV_STATUS
  if i &&& FD_EV_ACTIVE ≠ 0 then st
  else
    (updt_fd st fd).modifyFd fd
      (fun e => { e with spec_e := e.spec_e ||| (FD_EV_ACTIVE <<< dir) })

/-- `__fd_clr(fd, dir)` (lines 102-118): if the direction is already IDLE,
return; otherwise enqueue an update entry and XOR the direction's bits to
zero. -/
def fd_clr (st : PState) (fd dir : Nat) : PState :=
  let i := ((st.fdtab fd).spec_e >>> dir) &&& FD_EV_STATUS
  if i = 0 then st
  else
    (updt_fd st fd).modifyFd fd
      (fun e => { e with spec_e := e.spec_e ^^^ (i <<< dir) })

/-- `__fd_clo(fd)` (lines 131-135): release the SpecList entry and clear
both status nibbles.  `spec_e` is an 8-bit field, so the C expression
`spec_e &= ~(FD_EV_CURR_MASK | FD_EV_PREV_MASK)` keeps only the bits above
the low byte, i.e. `(spec_e >>> 8) <<< 8`. -/
def fd_clo (st : PState) (fd : Nat) : PState :=
  let st1 := { st with fd_spec := releaseSpecList st.fd_spec fd }
  st1.modifyFd fd (fun e => { e with spec_e := (e.spec_e >>> 8) <<< 8 })

/-! ### Update-list drain (src/src/ev_sepoll.c, lines 149-200) -/

/-- Opcode of an `epoll_ctl` call. -/
inductive EpollOpcode where
  | ADD
  | MOD
  | DEL
deriving Repr, DecidableEq

/-- One recorded kernel interest-set mutation: the `epoll_ctl(epoll_fd,
opcode, fd, &ev)` call of line 180 with `ev.events` and `ev.data.fd`. -/
structure EpollOp where
  opcode : EpollOpcode
  events : Nat
  fd : Nat
deriving Repr, DecidableEq

/-- The `ev.events` mask built at lines 171-177 from the new nibble `en`:
read-readiness iff POLLED_R, write-readiness iff POLLED_W. -/
def epollEventsOf (en : Nat) : Nat :=
  (if en &&& FD_EV_POLLED_R ≠ 0 then EPOLLIN else 0) |||
  (if en &&& FD_EV_POLLED_W ≠ 0 then EPOLLOUT else 0)

/-- The kernel mutation decided at lines 156-180 from the previous nibble
`eo` and the new nibble `en`: none when the POLLED bits agree, otherwise
DEL / ADD / MOD with the mask built from `en`. -/
def drainCtl (eo en : Nat) : Option (EpollOpcode × Nat) :=
  if (eo ^^^ en) &&& FD_EV_POLLED_RW ≠ 0 then
    some (if en &&& FD_EV_POLLED_RW = 0 then EpollOpcode.DEL
          else if eo &&& FD_EV_POLLED_RW = 0 then EpollOpcode.ADD
          else EpollOpcode.MOD,
          epollEventsOf en)
  else none

/-- One iteration of the update-list drain (lines 151-198) on the entry
`fd`: compute `en`/`eo`, and when the fd has an owner and the nibbles
differ, record the kernel mutation of `drainCtl`, save the new events
(`spec_e := (en << 4) + en`), and fix the SpecList membership; the
`updated` and `new` flags are cleared unconditionally.  The C expression
`(en & ~eo) & FD_EV_ACTIVE_RW` is embedded as
`en &&& (FD_EV_ACTIVE_RW ^^^ (eo &&& FD_EV_ACTIVE_RW))`, which computes the
same two low bits for every width of `eo`. -/
def drainStep (st : PState) (fd : Nat) : PState × Option EpollOp :=
  let en := (st.fdtab fd).spec_e &&& 15
  let eo := (st.fdtab fd).spec_e >>> 4
  if (st.fdtab fd).owner = true ∧ eo ^^^ en ≠ 0 then
    let op := (drainCtl eo en).map (fun c => EpollOp.mk c.1 c.2 fd)
    let st1 := st.modifyFd fd (fun e => { e with spec_e := (en <<< 4) + en })
    let st2 :=
      if en &&& FD_EV_ACTIVE_RW = 0 then
        { st1 with fd_spec := releaseSpecList st1.fd_spec fd }
      else if en &&& (FD_EV_ACTIVE_RW ^^^ (eo &&& FD_EV_ACTIVE_RW)) ≠ 0 then
        { st1 with fd_spec := allocSpecList st1.fd_spec fd }
      else st1
    (st2.modifyFd fd (fun e => { e with updated := false, fnew := false }), op)
  else
    (st.modifyFd fd (fun e => { e with updated := false, fnew := false }), none)

/-- The drain loop over a list of update entries, collecting the kernel
mutations in order. -/
def drainLoop : PState → List Nat → PState × List EpollOp
  | st, [] => (st, [])
  | st, fd :: rest =>
    let p := drainStep st fd
    let q := drainLoop p.1 rest
    (q.1, p.2.toList ++ q.2)

/-- The whole update-list drain (lines 149-200): run the loop over
`fd_updt` and then set `fd_nbupdt = 0`, i.e. empty the list. -/
def updateDrain (st : PState) : PState × List EpollOp :=
  let p := drainLoop st st.fd_updt
  ({ p.1 with fd_updt := [] }, p.2)

/-! ### Wait-time computation (src/src/ev_sepoll.c, lines 202-222)

The tick utilities live in include/common/ticks.h, which is not under
src/. -/

/-- Modelled from the spec: ticks are 32-bit wrapping millisecond counts
and comparisons interpret the difference as a signed 32-bit value.
`s32 x` is the signed value of `x mod 2^32`. -/
def s32 (x : Nat) : Int :=
  if x % 2 ^ 32 < 2 ^ 31 then (x % 2 ^ 32 : Int) else (x % 2 ^ 32 : Int) - 2 ^ 32

/-- Modelled from the spec: `tick_is_expired(t, now)` (include/common/ticks.h,
not under src/): an unset tick (0, eternity) never expires; otherwise the
tick is expired iff the signed 32-bit difference `t - now` is ≤ 0. -/
def tick_is_expired (t now : Nat) : Bool :=
  if t = 0 then false
  else decide (s32 (t + (2 ^ 32 - now % 2 ^ 32)) ≤ 0)

/-- Modelled from the spec: `tick_remain(now, exp)` (include/common/ticks.h,
not under src/): the number of ticks from `now` to `exp`, 0 if expired. -/
def tick_remain (now exp : Nat) : Nat :=
  if tick_is_expired exp now then 0
  else (exp + (2 ^ 32 - now % 2 ^ 32)) % 2 ^ 32

/-- Modelled from the spec: ticks are milliseconds, so `TICKS_TO_MS` is the
identity (include/common/ticks.h, not under src/). -/
def TICKS_TO_MS (t : Nat) : Nat := t

/-- The wait-time computation of lines 202-222, with the three emptiness
counters and the expiry passed in: 0 when any work is pending, else
MAX_DELAY_MS for no deadline, else 0 when expired, else the clamped
remainder plus one. -/
def computeWaitTime (fd_nbspec run_queue signal_queue_len exp now_ms : Nat) : Nat :=
  if fd_nbspec ≠ 0 ∨ run_queue ≠ 0 ∨ signal_queue_len ≠ 0 then 0
  else if exp = 0 then MAX_DELAY_MS
  else if tick_is_expired exp now_ms then 0
  else
    let wait_time := TICKS_TO_MS (tick_remain now_ms exp) + 1
    if wait_time > MAX_DELAY_MS then MAX_DELAY_MS else wait_time

/-- The wait-time rule as the spec words it (section 4.3): written
independently of `computeWaitTime` to compare the two. -/
def waitTimeSpec (fd_nbspec run_queue signal_queue_len exp now_ms : Nat) : Nat :=
  if fd_nbspec ≠ 0 ∨ run_queue ≠ 0 ∨ signal_queue_len ≠ 0 then 0
  else if exp = 0 then MAX_DELAY_MS
  else if tick_is_expired exp now_ms then 0
  else min MAX_DELAY_MS (TICKS_TO_MS (tick_remain now_ms exp) + 1)

/-! ### Kernel event dispatch and nested new-fd drain
(src/src/ev_sepoll.c, lines 236-304) -/

/-- The `ev` rewrite of lines 246-252: keep the sticky bits and translate
the kernel mask. -/
def translateEv (oldEv e : Nat) : Nat :=
  (oldEv &&& FD_POLL_STICKY) |||
  ((if e &&& EPOLLIN ≠ 0 then FD_POLL_IN else 0) |||
   ((if e &&& EPOLLPRI ≠ 0 then FD_POLL_PRI else 0) |||
    ((if e &&& EPOLLOUT ≠ 0 then FD_POLL_OUT else 0) |||
     ((if e &&& EPOLLERR ≠ 0 then FD_POLL_ERR else 0) |||
      (if e &&& EPOLLHUP ≠ 0 then FD_POLL_HUP else 0)))))

/-- The part of one nested-drain iteration that runs before the pop check
(lines 280-293), for the entry `fd`: clear `new`, reset `ev` to its sticky
bits, promote an exactly-ACTIVE direction to a readiness bit, and invoke
the callback when `ev`, `iocb` and `owner` allow. -/
def nestedPre (iocb : Nat → PState → PState) (st : PState) (fd : Nat) : PState :=
  let st1 := st.modifyFd fd
    (fun e => { e with fnew := false, ev := e.ev &&& FD_POLL_STICKY })
  let st2 :=
    if (st1.fdtab fd).spec_e &&& FD_EV_STATUS_R = FD_EV_ACTIVE_R then
      st1.modifyFd fd (fun e => { e with ev := e.ev ||| FD_POLL_IN })
    else st1
  let st3 :=
    if (st2.fdtab fd).spec_e &&& FD_EV_STATUS_W = FD_EV_ACTIVE_W then
      st2.modifyFd fd (fun e => { e with ev := e.ev ||| FD_POLL_OUT })
    else st2
  if (st3.fdtab fd).ev ≠ 0 ∧ (st3.fdtab fd).iocb = true ∧
      (st3.fdtab fd).owner = true then
    iocb fd st3
  else st3

/-- The pop check of lines 295-301: when this iteration's position is the
last of the UpdateList and the fd's whole status byte is zero, clear
`updated` and shrink the UpdateList by one. -/
def nestedPop (st : PState) (new_updt fd : Nat) : PState :=
  if new_updt = st.fd_updt.length ∧ (st.fdtab fd).spec_e = 0 then
    { st.modifyFd fd (fun e => { e with updated := false }) with
      fd_updt := st.fd_updt.dropLast }
  else st

/-- One whole iteration of the nested new-fd drain (lines 278-302) at
position `new_updt` (1-based, the loop reads `fd_updt[new_updt - 1]`):
entries whose `new` flag is clear are skipped. -/
def nestedStep (iocb : Nat → PState → PState) (st : PState) (new_updt : Nat) :
    PState :=
  let fd := st.fd_updt.getD (new_updt - 1) 0
  if (st.fdtab fd).fnew = false then st
  else nestedPop (nestedPre iocb st fd) new_updt fd

/-- The nested new-fd drain loop (lines 278-302): `new_updt` counts down
from the UpdateList length captured after the top-level callback to
`old_updt`, the length captured before it. -/
def nestedDrainFrom (iocb : Nat → PState → PState) (old_updt : Nat) :
    Nat → PState → PState
  | 0, st => st
  | n + 1, st =>
    if n + 1 > old_updt then nestedDrainFrom iocb old_updt n (nestedStep iocb st (n + 1))
    else st

/-- Dispatch of one kernel-returned event (lines 236-303): skip ownerless
fds, rewrite `ev`, mark the fd speculative in the indicated directions,
invoke the callback and run the nested new-fd drain. -/
def dispatchEvent (iocb : Nat → PState → PState) (st : PState) (e fd : Nat) :
    PState :=
  if (st.fdtab fd).owner = false then st
  else
    let st1 := st.modifyFd fd (fun x => { x with ev := translateEv x.ev e })
    if (st1.fdtab fd).iocb = true ∧ (st1.fdtab fd).owner = true ∧
        (st1.fdtab fd).ev ≠ 0 then
      let old_updt := st1.fd_updt.length
      let st2 :=
        if (st1.fdtab fd).ev &&& (FD_POLL_IN ||| FD_POLL_HUP ||| FD_POLL_ERR) ≠ 0
        then fd_set st1 fd DIR_RD else st1
      let st3 :=
        if (st2.fdtab fd).ev &&& (FD_POLL_OUT ||| FD_POLL_ERR) ≠ 0
        then fd_set st2 fd DIR_WR else st2
      let st4 := iocb fd st3
      nestedDrainFrom iocb old_updt st4.fd_updt.length st4
    else st1

/-! ### SpecList drive (src/src/ev_sepoll.c, lines 306-339) -/

/-- The state part of one SpecList-drive iteration (lines 309-330) at
index `spec_idx`: reset `ev` to its sticky bits, promote exactly-ACTIVE
directions to readiness bits, and invoke the callback when `iocb`,
`owner` and `ev` allow. -/
def specBodyState (iocb : Nat → PState → PState) (st : PState)
    (spec_idx : Nat) : PState :=
  let fd := st.fd_spec.getD spec_idx 0
  let eo := (st.fdtab fd).spec_e
  let st1 := st.modifyFd fd (fun e => { e with ev := e.ev &&& FD_POLL_STICKY })
  let st2 :=
    if eo &&& FD_EV_STATUS_R = FD_EV_ACTIVE_R then
      st1.modifyFd fd (fun e => { e with ev := e.ev ||| FD_POLL_IN })
    else st1
  let st3 :=
    if eo &&& FD_EV_STATUS_W = FD_EV_ACTIVE_W then
      st2.modifyFd fd (fun e => { e with ev := e.ev ||| FD_POLL_OUT })
    else st2
  if (st3.fdtab fd).iocb = true ∧ (st3.fdtab fd).owner = true ∧
      (st3.fdtab fd).ev ≠ 0 then
    iocb fd st3
  else st3

/-- One whole SpecList-drive iteration (lines 309-338): run the body and
return the next index: the same index when the entry at `spec_idx` no
longer holds `fd` (the callback swap-removed it and the last entry was
swapped in), the successor index otherwise. -/
def specDriveBody (iocb : Nat → PState → PState) (st : PState)
    (spec_idx : Nat) : PState × Nat :=
  let fd := st.fd_spec.getD spec_idx 0
  let st4 := specBodyState iocb st spec_idx
  if spec_idx < st4.fd_spec.length ∧ st4.fd_spec.getD spec_idx 0 ≠ fd then
    (st4, spec_idx)
  else (st4, spec_idx + 1)

/-- The SpecList-drive loop (lines 308-339), with explicit fuel since an
adversarial callback could keep the index from advancing: while the index
is below the SpecList length run the body, otherwise stop. -/
def specDrive (iocb : Nat → PState → PState) : Nat → PState → Nat → PState
  | 0, st, _ => st
  | fuel + 1, st, spec_idx =>
    if spec_idx < st.fd_spec.length then
      let p := specDriveBody iocb st spec_idx
      specDrive iocb fuel p.1 p.2
    else st

/-! ### Concrete states used by the witnesses -/

/-- An fd-table entry with everything cleared. -/
def entry0 : FdEntry :=
  { owner := false, iocb := false, spec_e := 0, ev := 0, updated := false,
    fnew := false }

/-- A state whose fd table is `entry0` everywhere except at `fd`. -/
def oneFdState (fd : Nat) (e : FdEntry) (updt spec : List Nat) : PState :=
  { fdtab := fun i => if i = fd then e else entry0,
    fd_updt := updt, fd_spec := spec }

/-- The identity callback: reads the fd, changes nothing. -/
def idCb : Nat → PState → PState := fun _ s => s

/-- Witness state for the drain-synchronization claim: fd 5 was POLLED_R
(previous nibble 4) and is now ACTIVE_R (current nibble 1). -/
def wC1 : PState := oneFdState 5 ⟨true, true, 0x41, 0, true, false⟩ [5] []

/-- Witness state for the SpecList-drive claim: fd 7 is ACTIVE_R and sits
alone in the SpecList. -/
def wC3 : PState := oneFdState 7 ⟨true, true, 1, 0, false, false⟩ [] [7]

/-- Witness state for the set_polled claim: fd 6 is ACTIVE_R. -/
def wC4 : PState := oneFdState 6 ⟨true, true, 1, 0, false, false⟩ [] [6]

/-- Witness state for the set_active claim: fd 6 is POLLED_R. -/
def wC5 : PState := oneFdState 6 ⟨true, true, 4, 0, false, false⟩ [] []

/-- Witness state for the previous-equals-current claim: fd 2 moved from
ACTIVE_W (previous nibble 2) to ACTIVE_R (current nibble 1). -/
def wC6 : PState := oneFdState 2 ⟨true, true, 0x21, 0, true, false⟩ [2] []

/-- Witness state for the nested-drain pop claim: fd 4 is a new, fully idle
entry at the tail of the UpdateList. -/
def wC7 : PState := oneFdState 4 ⟨true, false, 0, 0, true, true⟩ [4] []

/-- Witness state for the unconditional flag-clearing claim: fd 3 has no
owner and differing nibbles; its flags must still be cleared. -/
def wC9 : PState := oneFdState 3 ⟨false, false, 0x30, 0, true, true⟩ [3] []

/-- Witness state for the close_notify frame claim: fd 9 is
ACTIVE|POLLED in both directions, enqueued, and in the SpecList. -/
def wC10 : PState := oneFdState 9 ⟨true, true, 0x55, 0, true, false⟩ [9] [9]

/-! ### Helper lemmas -/

theorem modifyFd_self (st : PState) (fd : Nat) (f : FdEntry → FdEntry) :
    (st.modifyFd fd f).fdtab fd = f (st.fdtab fd) := by
  simp [PState.modifyFd]

theorem modifyFd_other (st : PState) (fd i : Nat) (f : FdEntry → FdEntry)
    (h : i ≠ fd) : (st.modifyFd fd f).fdtab i = st.fdtab i := by
  simp [PState.modifyFd, h]

theorem modifyFd_fd_updt (st : PState) (fd : Nat) (f : FdEntry → FdEntry) :
    (st.modifyFd fd f).fd_updt = st.fd_updt := rfl

theorem modifyFd_fd_spec (st : PState) (fd : Nat) (f : FdEntry → FdEntry) :
    (st.modifyFd fd f).fd_spec = st.fd_spec := rfl

theorem updt_fd_entry_fields (st : PState) (fd i : Nat) :
    ((updt_fd st fd).fdtab i).spec_e = (st.fdtab i).spec_e ∧
    ((updt_fd st fd).fdtab i).ev = (st.fdtab i).ev ∧
    ((updt_fd st fd).fdtab i).owner = (st.fdtab i).owner ∧
    ((updt_fd st fd).fdtab i).iocb = (st.fdtab i).iocb ∧
    ((updt_fd st fd).fdtab i).fnew = (st.fdtab i).fnew := by
  unfold updt_fd
  split
  · exact ⟨rfl, rfl, rfl, rfl, rfl⟩
  · simp only [PState.modifyFd]
    split <;> exact ⟨rfl, rfl, rfl, rfl, rfl⟩

theorem updt_fd_updated_self (st : PState) (fd : Nat) :
    ((updt_fd st fd).fdtab fd).updated = true := by
  unfold updt_fd
  split
  · assumption
  · simp [PState.modifyFd]

theorem updt_fd_mem (st : PState) (fd : Nat)
    (h : (st.fdtab fd).updated = true → fd ∈ st.fd_updt) :
    fd ∈ (updt_fd st fd).fd_updt := by
  unfold updt_fd
  split
  · exact h (by assumption)
  · simp

theorem updt_fd_list_of_updated (st : PState) (fd : Nat)
    (h : (st.fdtab fd).updated = true) :
    (updt_fd st fd).fd_updt = st.fd_updt := by
  unfold updt_fd
  rw [if_pos h]

theorem updt_fd_list_of_not_updated (st : PState) (fd : Nat)
    (h : (st.fdtab fd).updated = false) :
    (updt_fd st fd).fd_updt = st.fd_updt ++ [fd] := by
  unfold updt_fd
  rw [if_neg (by simp [h])]

/-! ### Claim theorems -/

/-- C2: the poll function's kernel wait timeout is 0 when the speculative
list, the run queue, or the signal queue is non-empty; otherwise
MAX_DELAY_MS when the caller-supplied expiry tick is 0; otherwise 0 when
the expiry is already expired relative to now_ms; otherwise
min(MAX_DELAY_MS, TICKS_TO_MS(tick_remain(now_ms, exp)) + 1). -/
theorem computeWaitTime_matches_spec
    (fd_nbspec run_queue signal_queue_len exp now_ms : Nat) :
    computeWaitTime fd_nbspec run_queue signal_queue_len exp now_ms =
    waitTimeSpec fd_nbspec run_queue signal_queue_len exp now_ms := by
  unfold computeWaitTime waitTimeSpec
  dsimp only []
  split_ifs <;> omega

/-- C8: a kernel-returned event whose fd has no owner at dispatch time is
silently skipped: the dispatch step returns the state unchanged (so no
`ev` rewrite, no speculative marking and, since this holds for every
callback function, no callback invocation). -/
theorem dispatch_skips_ownerless (iocb : Nat → PState → PState)
    (st : PState) (e fd : Nat) (h : (st.fdtab fd).owner = false) :
    dispatchEvent iocb st e fd = st := by
  unfold dispatchEvent
  rw [if_pos h]

theorem dispatch_skips_ownerless_witness :
    ((oneFdState 8 entry0 [] []).fdtab 8).owner = false ∧
    dispatchEvent idCb (oneFdState 8 entry0 [] []) 1 8 =
      oneFdState 8 entry0 [] [] :=
  ⟨by decide,
   dispatch_skips_ownerless idCb (oneFdState 8 entry0 [] []) 1 8 (by decide)⟩

theorem drainCtl_none_iff : ∀ eo < 16, ∀ en < 16,
    (drainCtl eo en ≠ none ↔
      eo &&& FD_EV_POLLED_RW ≠ en &&& FD_EV_POLLED_RW) := by
  decide

theorem drainCtl_del_iff : ∀ eo < 16, ∀ en < 16,
    (drainCtl eo en ≠ none →
      (((drainCtl eo en).getD (EpollOpcode.DEL, 0)).1 = EpollOpcode.DEL ↔
        en &&& FD_EV_POLLED_RW = 0)) := by
  decide

theorem drainCtl_add_iff : ∀ eo < 16, ∀ en < 16,
    (drainCtl eo en ≠ none →
      (((drainCtl eo en).getD (EpollOpcode.DEL, 0)).1 = EpollOpcode.ADD ↔
        en &&& FD_EV_POLLED_RW ≠ 0 ∧ eo &&& FD_EV_POLLED_RW = 0)) := by
  decide

theorem drainCtl_mod_iff : ∀ eo < 16, ∀ en < 16,
    (drainCtl eo en ≠ none →
      (((drainCtl eo en).getD (EpollOpcode.DEL, 0)).1 = EpollOpcode.MOD ↔
        en &&& FD_EV_POLLED_RW ≠ 0 ∧ eo &&& FD_EV_POLLED_RW ≠ 0)) := by
  decide

theorem drainCtl_in_iff : ∀ eo < 16, ∀ en < 16,
    (drainCtl eo en ≠ none →
      (((drainCtl eo en).getD (EpollOpcode.DEL, 0)).2 &&& EPOLLIN ≠ 0 ↔
        en &&& FD_EV_POLLED_R ≠ 0)) := by
  decide

theorem drainCtl_out_iff : ∀ eo < 16, ∀ en < 16,
    (drainCtl eo en ≠ none →
      (((drainCtl eo en).getD (EpollOpcode.DEL, 0)).2 &&& EPOLLOUT ≠ 0 ↔
        en &&& FD_EV_POLLED_W ≠ 0)) := by
  decide

/-- C1: in the update-list drain, for an fd with an owner whose current
nibble differs from its previous nibble, a kernel interest-set mutation is
recorded iff the POLLED bits of the two nibbles differ; the opcode is DEL
when the new nibble has no POLLED bits, ADD when the old one had none, MOD
otherwise; and the event mask has read-readiness iff POLLED_R and
write-readiness iff POLLED_W is set in the new nibble. -/
theorem drain_kernel_sync (st : PState) (fd : Nat)
    (hb : (st.fdtab fd).spec_e < 256)
    (hown : (st.fdtab fd).owner = true)
    (hne : (st.fdtab fd).spec_e >>> 4 ≠ (st.fdtab fd).spec_e &&& 15) :
    ((drainStep st fd).2 ≠ none ↔
      ((st.fdtab fd).spec_e >>> 4) &&& FD_EV_POLLED_RW ≠
        ((st.fdtab fd).spec_e &&& 15) &&& FD_EV_POLLED_RW) ∧
    (∀ o : EpollOp, (drainStep st fd).2 = some o →
      o.fd = fd ∧
      (o.opcode = EpollOpcode.DEL ↔
        ((st.fdtab fd).spec_e &&& 15) &&& FD_EV_POLLED_RW = 0) ∧
      (o.opcode = EpollOpcode.ADD ↔
        ((st.fdtab fd).spec_e &&& 15) &&& FD_EV_POLLED_RW ≠ 0 ∧
        ((st.fdtab fd).spec_e >>> 4) &&& FD_EV_POLLED_RW = 0) ∧
      (o.opcode = EpollOpcode.MOD ↔
        ((st.fdtab fd).spec_e &&& 15) &&& FD_EV_POLLED_RW ≠ 0 ∧
        ((st.fdtab fd).spec_e >>> 4) &&& FD_EV_POLLED_RW ≠ 0) ∧
      (o.events &&& EPOLLIN ≠ 0 ↔
        ((st.fdtab fd).spec_e &&& 15) &&& FD_EV_POLLED_R ≠ 0) ∧
      (o.events &&& EPOLLOUT ≠ 0 ↔
        ((st.fdtab fd).spec_e &&& 15) &&& FD_EV_POLLED_W ≠ 0)) := by
  have hb1 : (st.fdtab fd).spec_e >>> 4 < 16 := by
    rw [Nat.shiftRight_eq_div_pow]
    omega
  have hb2 : (st.fdtab fd).spec_e &&& 15 < 16 :=
    Nat.lt_succ_of_le (Nat.and_le_right)
  have hguard : (st.fdtab fd).owner = true ∧
      (st.fdtab fd).spec_e >>> 4 ^^^ ((st.fdtab fd).spec_e &&& 15) ≠ 0 :=
    ⟨hown, fun h0 => hne (Nat.xor_eq_zero.mp h0)⟩
  have hstep : (drainStep st fd).2 =
      (drainCtl ((st.fdtab fd).spec_e >>> 4) ((st.fdtab fd).spec_e &&& 15)).map
        (fun c => EpollOp.mk c.1 c.2 fd) := by
    unfold drainStep
    dsimp only []
    rw [if_pos hguard]
  constructor
  · rw [hstep, Ne, Option.map_eq_none']
    exact drainCtl_none_iff _ hb1 _ hb2
  · intro o ho
    rw [hstep] at ho
    obtain ⟨c, hc, hco⟩ := Option.map_eq_some'.mp ho
    have hcne : drainCtl ((st.fdtab fd).spec_e >>> 4)
        ((st.fdtab fd).spec_e &&& 15) ≠ none := by
      rw [hc]; exact Option.some_ne_none c
    have hget : (drainCtl ((st.fdtab fd).spec_e >>> 4)
        ((st.fdtab fd).spec_e &&& 15)).getD (EpollOpcode.DEL, 0) = c := by
      rw [hc]; rfl
    have h1 := drainCtl_del_iff _ hb1 _ hb2 hcne
    have h2 := drainCtl_add_iff _ hb1 _ hb2 hcne
    have h3 := drainCtl_mod_iff _ hb1 _ hb2 hcne
    have h4 := drainCtl_in_iff _ hb1 _ hb2 hcne
    have h5 := drainCtl_out_iff _ hb1 _ hb2 hcne
    rw [hget] at h1 h2 h3 h4 h5
    subst hco
    exact ⟨rfl, h1, h2, h3, h4, h5⟩

theorem drain_kernel_sync_witness :
    (wC1.fdtab 5).spec_e < 256 ∧ (wC1.fdtab 5).owner = true ∧
    (wC1.fdtab 5).spec_e >>> 4 ≠ (wC1.fdtab 5).spec_e &&& 15 ∧
    (drainStep wC1 5).2 ≠ none :=
  ⟨by decide, by decide, by decide,
   (drain_kernel_sync wC1 5 (by decide) (by decide) (by decide)).1.mpr
     (by decide)⟩

theorem updt_fd_other (st : PState) (fd i : Nat) (h : i ≠ fd) :
    (updt_fd st fd).fdtab i = st.fdtab i := by
  unfold updt_fd
  split
  · rfl
  · simp [PState.modifyFd, h]

theorem wai_bits_ne : ∀ s < 256, ∀ dir < 2,
    ((s >>> dir) &&& FD_EV_STATUS ≠ FD_EV_POLLED →
      s ^^^ ((((s >>> dir) &&& FD_EV_STATUS) ^^^ FD_EV_POLLED) <<< dir) ≠ s) := by
  decide

theorem wai_bits_dir : ∀ s < 256, ∀ dir < 2,
    (((s ^^^ ((((s >>> dir) &&& FD_EV_STATUS) ^^^ FD_EV_POLLED) <<< dir)) >>> dir)
      &&& FD_EV_STATUS = FD_EV_POLLED) := by
  decide

theorem wai_bits_other : ∀ s < 256, ∀ dir < 2,
    (((s ^^^ ((((s >>> dir) &&& FD_EV_STATUS) ^^^ FD_EV_POLLED) <<< dir)) >>> (1 - dir))
      &&& FD_EV_STATUS = (s >>> (1 - dir)) &&& FD_EV_STATUS) := by
  decide

theorem wai_bits_prev : ∀ s < 256, ∀ dir < 2,
    ((s ^^^ ((((s >>> dir) &&& FD_EV_STATUS) ^^^ FD_EV_POLLED) <<< dir)) >>> 4
      = s >>> 4) := by
  decide

/-- C4: `set_polled` (`__fd_wai`) is a no-op exactly when the direction's
status bits already equal POLLED; in every other status it enqueues the fd
in the UpdateList (appending it when not already enqueued) and transitions
the direction's bits to exactly POLLED, leaving the other direction's
bits, the previous nibble, and every other fd's entry unchanged. -/
theorem fd_wai_correct (st : PState) (fd dir : Nat)
    (hdir : dir = DIR_RD ∨ dir = DIR_WR)
    (hb : (st.fdtab fd).spec_e < 256)
    (hupd : (st.fdtab fd).updated = true → fd ∈ st.fd_updt) :
    (((st.fdtab fd).spec_e >>> dir) &&& FD_EV_STATUS = FD_EV_POLLED →
      fd_wai st fd dir = st) ∧
    (((st.fdtab fd).spec_e >>> dir) &&& FD_EV_STATUS ≠ FD_EV_POLLED →
      ((fd_wai st fd dir).fdtab fd).spec_e ≠ (st.fdtab fd).spec_e ∧
      (((fd_wai st fd dir).fdtab fd).spec_e >>> dir) &&& FD_EV_STATUS =
        FD_EV_POLLED ∧
      (((fd_wai st fd dir).fdtab fd).spec_e >>> (1 - dir)) &&& FD_EV_STATUS =
        ((st.fdtab fd).spec_e >>> (1 - dir)) &&& FD_EV_STATUS ∧
      ((fd_wai st fd dir).fdtab fd).spec_e >>> 4 = (st.fdtab fd).spec_e >>> 4 ∧
      ((fd_wai st fd dir).fdtab fd).updated = true ∧
      fd ∈ (fd_wai st fd dir).fd_updt ∧
      ((st.fdtab fd).updated = true → (fd_wai st fd dir).fd_updt = st.fd_updt) ∧
      ((st.fdtab fd).updated = false →
        (fd_wai st fd dir).fd_updt = st.fd_updt ++ [fd]) ∧
      (∀ i, i ≠ fd → (fd_wai st fd dir).fdtab i = st.fdtab i)) := by
  have hd2 : dir < 2 := by rcases hdir with h | h <;> simp [h, DIR_RD, DIR_WR]
  constructor
  · intro h
    unfold fd_wai
    dsimp only []
    rw [if_pos h]
  · intro h
    have hst : fd_wai st fd dir = (updt_fd st fd).modifyFd fd
        (fun e => { e with spec_e := e.spec_e ^^^
          (((((st.fdtab fd).spec_e >>> dir) &&& FD_EV_STATUS) ^^^ FD_EV_POLLED)
            <<< dir) }) := by
      unfold fd_wai
      dsimp only []
      rw [if_neg h]
    have hspec : ((fd_wai st fd dir).fdtab fd).spec_e =
        (st.fdtab fd).spec_e ^^^
          (((((st.fdtab fd).spec_e >>> dir) &&& FD_EV_STATUS) ^^^ FD_EV_POLLED)
            <<< dir) := by
      rw [hst, modifyFd_self, (updt_fd_entry_fields st fd fd).1]
    refine ⟨?_, ?_, ?_, ?_, ?_, ?_, ?_, ?_, ?_⟩
    · rw [hspec]; exact wai_bits_ne _ hb _ hd2 h
    · rw [hspec]; exact wai_bits_dir _ hb _ hd2
    · rw [hspec]; exact wai_bits_other _ hb _ hd2
    · rw [hspec]; exact wai_bits_prev _ hb _ hd2
    · rw [hst, modifyFd_self]
      exact updt_fd_updated_self st fd
    · rw [hst, modifyFd_fd_updt]
      exact updt_fd_mem st fd hupd
    · intro hu
      rw [hst, modifyFd_fd_updt]
      exact updt_fd_list_of_updated st fd hu
    · intro hu
      rw [hst, modifyFd_fd_updt]
      exact updt_fd_list_of_not_updated st fd hu
    · intro i hi
      rw [hst, modifyFd_other _ _ _ _ hi, updt_fd_other st fd i hi]

theorem fd_wai_correct_witness :
    ((wC4.fdtab 6).spec_e >>> 0) &&& FD_EV_STATUS ≠ FD_EV_POLLED ∧
    (((fd_wai wC4 6 0).fdtab 6).spec_e >>> 0) &&& FD_EV_STATUS =
      FD_EV_POLLED ∧
    ((fd_wai wC4 6 0).fdtab 6).updated = true :=
  ⟨by decide,
   ((fd_wai_correct wC4 6 0 (Or.inl rfl) (by decide) (by decide)).2
     (by decide)).2.1,
   (((fd_wai_correct wC4 6 0 (Or.inl rfl) (by decide) (by decide)).2
     (by decide)).2.2.2.2).1⟩

theorem set_bits_active : ∀ s < 256, ∀ dir < 2,
    ((((s ||| (FD_EV_ACTIVE <<< dir)) >>> dir) &&& FD_EV_STATUS) &&&
      FD_EV_ACTIVE ≠ 0) := by
  decide

theorem set_bits_polled : ∀ s < 256, ∀ dir < 2,
    (((s ||| (FD_EV_ACTIVE <<< dir)) >>> dir) &&& FD_EV_POLLED =
      (s >>> dir) &&& FD_EV_POLLED) := by
  decide

theorem set_bits_other : ∀ s < 256, ∀ dir < 2,
    (((s ||| (FD_EV_ACTIVE <<< dir)) >>> (1 - dir)) &&& FD_EV_STATUS =
      (s >>> (1 - dir)) &&& FD_EV_STATUS) := by
  decide

theorem set_bits_prev : ∀ s < 256, ∀ dir < 2,
    ((s ||| (FD_EV_ACTIVE <<< dir)) >>> 4 = s >>> 4) := by
  decide

/-- C5: `set_active` (`__fd_set`) is a no-op when the direction's ACTIVE
bit is already set; otherwise it enqueues the fd in the UpdateList (only
when not already enqueued) and sets the ACTIVE bit without clearing the
direction's POLLED bit, leaving the other direction, the previous nibble
and other fds unchanged; and calling it twice equals calling it once, so
the second call performs no additional UpdateList enqueue. -/
theorem fd_set_correct (st : PState) (fd dir : Nat)
    (hdir : dir = DIR_RD ∨ dir = DIR_WR)
    (hb : (st.fdtab fd).spec_e < 256)
    (hupd : (st.fdtab fd).updated = true → fd ∈ st.fd_updt) :
    ((((st.fdtab fd).spec_e >>> dir) &&& FD_EV_STATUS) &&& FD_EV_ACTIVE ≠ 0 →
      fd_set st fd dir = st) ∧
    ((((st.fdtab fd).spec_e >>> dir) &&& FD_EV_STATUS) &&& FD_EV_ACTIVE = 0 →
      ((((fd_set st fd dir).fdtab fd).spec_e >>> dir) &&& FD_EV_STATUS) &&&
        FD_EV_ACTIVE ≠ 0 ∧
      (((fd_set st fd dir).fdtab fd).spec_e >>> dir) &&& FD_EV_POLLED =
        ((st.fdtab fd).spec_e >>> dir) &&& FD_EV_POLLED ∧
      (((fd_set st fd dir).fdtab fd).spec_e >>> (1 - dir)) &&& FD_EV_STATUS =
        ((st.fdtab fd).spec_e >>> (1 - dir)) &&& FD_EV_STATUS ∧
      ((fd_set st fd dir).fdtab fd).spec_e >>> 4 = (st.fdtab fd).spec_e >>> 4 ∧
      ((fd_set st fd dir).fdtab fd).updated = true ∧
      fd ∈ (fd_set st fd dir).fd_updt ∧
      ((st.fdtab fd).updated = true → (fd_set st fd dir).fd_updt = st.fd_updt) ∧
      ((st.fdtab fd).updated = false →
        (fd_set st fd dir).fd_updt = st.fd_updt ++ [fd]) ∧
      (∀ i, i ≠ fd → (fd_set st fd dir).fdtab i = st.fdtab i)) ∧
    fd_set (fd_set st fd dir) fd dir = fd_set st fd dir := by
  have hd2 : dir < 2 := by rcases hdir with h | h <;> simp [h, DIR_RD, DIR_WR]
  have hnoop : ∀ st2 : PState,
      (((st2.fdtab fd).spec_e >>> dir) &&& FD_EV_STATUS) &&& FD_EV_ACTIVE ≠ 0 →
      fd_set st2 fd dir = st2 := by
    intro st2 h
    unfold fd_set
    dsimp only []
    rw [if_pos h]
  have hmain : (((st.fdtab fd).spec_e >>> dir) &&& FD_EV_STATUS) &&&
      FD_EV_ACTIVE = 0 →
      fd_set st fd dir = (updt_fd st fd).modifyFd fd
        (fun e => { e with spec_e := e.spec_e ||| (FD_EV_ACTIVE <<< dir) }) := by
    intro h
    unfold fd_set
    dsimp only []
    rw [if_neg (by simp [h])]
  refine ⟨hnoop st, ?_, ?_⟩
  · intro h
    have hspec : ((fd_set st fd dir).fdtab fd).spec_e =
        (st.fdtab fd).spec_e ||| (FD_EV_ACTIVE <<< dir) := by
      rw [hmain h, modifyFd_self, (updt_fd_entry_fields st fd fd).1]
    refine ⟨?_, ?_, ?_, ?_, ?_, ?_, ?_, ?_, ?_⟩
    · rw [hspec]; exact set_bits_active _ hb _ hd2
    · rw [hspec]; exact set_bits_polled _ hb _ hd2
    · rw [hspec]; exact set_bits_other _ hb _ hd2
    · rw [hspec]; exact set_bits_prev _ hb _ hd2
    · rw [hmain h, modifyFd_self]
      exact updt_fd_updated_self st fd
    · rw [hmain h, modifyFd_fd_updt]
      exact updt_fd_mem st fd hupd
    · intro hu
      rw [hmain h, modifyFd_fd_updt]
      exact updt_fd_list_of_updated st fd hu
    · intro hu
      rw [hmain h, modifyFd_fd_updt]
      exact updt_fd_list_of_not_updated st fd hu
    · intro i hi
      rw [hmain h, modifyFd_other _ _ _ _ hi, updt_fd_other st fd i hi]
  · by_cases h : (((st.fdtab fd).spec_e >>> dir) &&& FD_EV_STATUS) &&&
        FD_EV_ACTIVE ≠ 0
    · rw [hnoop st h, hnoop st h]
    · push_neg at h
      have hspec : ((fd_set st fd dir).fdtab fd).spec_e =
          (st.fdtab fd).spec_e ||| (FD_EV_ACTIVE <<< dir) := by
        rw [hmain h, modifyFd_self, (updt_fd_entry_fields st fd fd).1]
      refine hnoop (fd_set st fd dir) ?_
      rw [hspec]
      exact set_bits_active _ hb _ hd2

theorem fd_set_correct_witness :
    (((wC5.fdtab 6).spec_e >>> 0) &&& FD_EV_STATUS) &&& FD_EV_ACTIVE = 0 ∧
    (((fd_set wC5 6 0).fdtab 6).spec_e >>> 0) &&& FD_EV_POLLED =
      ((wC5.fdtab 6).spec_e >>> 0) &&& FD_EV_POLLED ∧
    fd_set (fd_set wC5 6 0) 6 0 = fd_set wC5 6 0 :=
  ⟨by decide,
   (((fd_set_correct wC5 6 0 (Or.inl rfl) (by decide) (by decide)).2.1
     (by decide)).2).1,
   (fd_set_correct wC5 6 0 (Or.inl rfl) (by decide) (by decide)).2.2⟩

/-- C3: during the SpecList drive, after a callback returns the iteration
index advances iff the entry at the current index still holds the same fd
(or the index fell past the shrunk list's end); when the callback removed
that fd and a different fd was swap-filled into the slot, the index does
not advance, so the swapped-in fd is processed at the same index; and the
iteration terminates as soon as the index reaches the possibly-shrunk
SpecList length. -/
theorem spec_drive_advance (iocb : Nat → PState → PState) (st : PState)
    (spec_idx : Nat) (h : spec_idx < st.fd_spec.length) :
    ((specDriveBody iocb st spec_idx).2 = spec_idx ∨
     (specDriveBody iocb st spec_idx).2 = spec_idx + 1) ∧
    ((specDriveBody iocb st spec_idx).2 = spec_idx + 1 ↔
      ((specBodyState iocb st spec_idx).fd_spec.length ≤ spec_idx ∨
       (specBodyState iocb st spec_idx).fd_spec.getD spec_idx 0 =
         st.fd_spec.getD spec_idx 0)) ∧
    ((specDriveBody iocb st spec_idx).2 = spec_idx ↔
      (spec_idx < (specBodyState iocb st spec_idx).fd_spec.length ∧
       (specBodyState iocb st spec_idx).fd_spec.getD spec_idx 0 ≠
         st.fd_spec.getD spec_idx 0)) ∧
    (specDriveBody iocb st spec_idx).1 = specBodyState iocb st spec_idx ∧
    (∀ fuel st2 idx2, st2.fd_spec.length ≤ idx2 →
      specDrive iocb fuel st2 idx2 = st2) := by
  have hbody : specDriveBody iocb st spec_idx =
      if spec_idx < (specBodyState iocb st spec_idx).fd_spec.length ∧
          (specBodyState iocb st spec_idx).fd_spec.getD spec_idx 0 ≠
            st.fd_spec.getD spec_idx 0 then
        (specBodyState iocb st spec_idx, spec_idx)
      else (specBodyState iocb st spec_idx, spec_idx + 1) := by
    unfold specDriveBody
    dsimp only []
  have hterm : ∀ fuel (st2 : PState) (idx2 : Nat),
      st2.fd_spec.length ≤ idx2 → specDrive iocb fuel st2 idx2 = st2 := by
    intro fuel
    cases fuel with
    | zero => intro st2 idx2 _; rfl
    | succ n =>
      intro st2 idx2 hle
      unfold specDrive
      rw [if_neg (by omega)]
  by_cases hc : spec_idx < (specBodyState iocb st spec_idx).fd_spec.length ∧
      (specBodyState iocb st spec_idx).fd_spec.getD spec_idx 0 ≠
        st.fd_spec.getD spec_idx 0
  · rw [hbody, if_pos hc]
    exact ⟨Or.inl rfl,
      ⟨fun h2 => absurd h2 (by omega), fun h2 => by
        rcases h2 with h2 | h2
        · omega
        · exact absurd h2 hc.2⟩,
      ⟨fun _ => hc, fun _ => rfl⟩, rfl, hterm⟩
  · rw [hbody, if_neg hc]
    push_neg at hc
    refine ⟨Or.inr rfl, ⟨fun _ => ?_, fun _ => rfl⟩,
      ⟨fun h2 => absurd h2 (by omega), fun h2 => absurd (hc h2.1) h2.2⟩,
      rfl, hterm⟩
    by_cases hlen : spec_idx < (specBodyState iocb st spec_idx).fd_spec.length
    · exact Or.inr (hc hlen)
    · exact Or.inl (by omega)

theorem spec_drive_advance_witness :
    0 < wC3.fd_spec.length ∧ (specDriveBody idCb wC3 0).2 = 0 + 1 :=
  ⟨by decide,
   (spec_drive_advance idCb wC3 0 (by decide)).2.1.mpr (Or.inr rfl)⟩

/-- C7: in the nested new-fd drain, an entry whose `new` flag was set has
its UpdateList entry popped (length decremented and `updated` cleared) iff
its position is the last of the UpdateList after its callback and the
fd's status byte is fully IDLE (zero) there; in every other case (in
particular a non-trailing IDLE entry) the UpdateList is left exactly as
the callback left it. -/
theorem nested_pop_rule (iocb : Nat → PState → PState) (st : PState)
    (new_updt : Nat)
    (hnew : (st.fdtab (st.fd_updt.getD (new_updt - 1) 0)).fnew = true) :
    ((new_updt =
        (nestedPre iocb st (st.fd_updt.getD (new_updt - 1) 0)).fd_updt.length ∧
      ((nestedPre iocb st (st.fd_updt.getD (new_updt - 1) 0)).fdtab
        (st.fd_updt.getD (new_updt - 1) 0)).spec_e = 0) →
      ((nestedStep iocb st new_updt).fd_updt =
        (nestedPre iocb st (st.fd_updt.getD (new_updt - 1) 0)).fd_updt.dropLast ∧
      (nestedStep iocb st new_updt).fd_updt.length =
        (nestedPre iocb st (st.fd_updt.getD (new_updt - 1) 0)).fd_updt.length
          - 1 ∧
      ((nestedStep iocb st new_updt).fdtab
        (st.fd_updt.getD (new_updt - 1) 0)).updated = false)) ∧
    (¬(new_updt =
        (nestedPre iocb st (st.fd_updt.getD (new_updt - 1) 0)).fd_updt.length ∧
      ((nestedPre iocb st (st.fd_updt.getD (new_updt - 1) 0)).fdtab
        (st.fd_updt.getD (new_updt - 1) 0)).spec_e = 0) →
      nestedStep iocb st new_updt =
        nestedPre iocb st (st.fd_updt.getD (new_updt - 1) 0)) := by
  have hstep : nestedStep iocb st new_updt =
      nestedPop (nestedPre iocb st (st.fd_updt.getD (new_updt - 1) 0)) new_updt
        (st.fd_updt.getD (new_updt - 1) 0) := by
    unfold nestedStep
    dsimp only []
    rw [if_neg (by simp only [hnew]; decide)]
  constructor
  · intro hc
    rw [hstep]
    unfold nestedPop
    rw [if_pos hc]
    refine ⟨rfl, ?_, ?_⟩
    · exact List.length_dropLast _
    · rw [modifyFd_self]
  · intro hc
    rw [hstep]
    unfold nestedPop
    rw [if_neg hc]

theorem nested_pop_rule_witness :
    (wC7.fdtab (wC7.fd_updt.getD 0 0)).fnew = true ∧
    (nestedStep idCb wC7 1).fd_updt.length =
      (nestedPre idCb wC7 (wC7.fd_updt.getD 0 0)).fd_updt.length - 1 :=
  ⟨by decide,
   ((nested_pop_rule idCb wC7 1 (by decide)).1 ⟨by decide, by decide⟩).2.1⟩

theorem drainStep_other (st : PState) (fd i : Nat) (h : i ≠ fd) :
    (drainStep st fd).1.fdtab i = st.fdtab i := by
  unfold drainStep
  dsimp only []
  split_ifs <;> simp [PState.modifyFd, h]

theorem nib_roundtrip_aux : ∀ en < 16,
    ((en <<< 4) + en) >>> 4 = ((en <<< 4) + en) &&& 15 := by
  decide

theorem drainStep_self_nibeq (st : PState) (fd : Nat)
    (h : (st.fdtab fd).owner = false →
      (st.fdtab fd).spec_e >>> 4 = (st.fdtab fd).spec_e &&& 15) :
    ((drainStep st fd).1.fdtab fd).spec_e >>> 4 =
    ((drainStep st fd).1.fdtab fd).spec_e &&& 15 := by
  have hand : (st.fdtab fd).spec_e &&& 15 < 16 :=
    Nat.lt_succ_of_le Nat.and_le_right
  unfold drainStep
  dsimp only []
  split_ifs with hg h1 h2
  · simp only [PState.modifyFd, if_pos rfl]
    exact nib_roundtrip_aux _ hand
  · simp only [PState.modifyFd, if_pos rfl]
    exact nib_roundtrip_aux _ hand
  · simp only [PState.modifyFd, if_pos rfl]
    exact nib_roundtrip_aux _ hand
  · simp only [PState.modifyFd, if_pos rfl]
    by_cases ho : (st.fdtab fd).owner = true
    · have hx : (st.fdtab fd).spec_e >>> 4 ^^^ ((st.fdtab fd).spec_e &&& 15)
          = 0 := by
        by_contra hx0
        exact hg ⟨ho, hx0⟩
      exact Nat.xor_eq_zero.mp hx
    · exact h (Bool.not_eq_true _ ▸ ho)

theorem drainStep_preserves_nibeq (st : PState) (fd fd2 : Nat)
    (h : (st.fdtab fd).spec_e >>> 4 = (st.fdtab fd).spec_e &&& 15) :
    ((drainStep st fd2).1.fdtab fd).spec_e >>> 4 =
    ((drainStep st fd2).1.fdtab fd).spec_e &&& 15 := by
  by_cases hf : fd = fd2
  · subst hf
    exact drainStep_self_nibeq st fd (fun _ => h)
  · rw [drainStep_other st fd2 fd hf]
    exact h

theorem drainLoop_cons_fst (st : PState) (a : Nat) (rest : List Nat) :
    (drainLoop st (a :: rest)).1 = (drainLoop (drainStep st a).1 rest).1 := rfl

theorem drainLoop_preserves_nibeq : ∀ (l : List Nat) (st : PState) (fd : Nat),
    (st.fdtab fd).spec_e >>> 4 = (st.fdtab fd).spec_e &&& 15 →
    ((drainLoop st l).1.fdtab fd).spec_e >>> 4 =
    ((drainLoop st l).1.fdtab fd).spec_e &&& 15 := by
  intro l
  induction l with
  | nil => intro st fd h; exact h
  | cons a rest ih =>
    intro st fd h
    rw [drainLoop_cons_fst]
    exact ih _ fd (drainStep_preserves_nibeq st fd a h)

theorem drainLoop_nibeq : ∀ (l : List Nat) (st : PState),
    (∀ fd ∈ l, (st.fdtab fd).owner = false →
      (st.fdtab fd).spec_e >>> 4 = (st.fdtab fd).spec_e &&& 15) →
    ∀ fd ∈ l, ((drainLoop st l).1.fdtab fd).spec_e >>> 4 =
      ((drainLoop st l).1.fdtab fd).spec_e &&& 15 := by
  intro l
  induction l with
  | nil => intro st _ fd hm; exact absurd hm (List.not_mem_nil fd)
  | cons a rest ih =>
    intro st hyp fd hm
    rw [drainLoop_cons_fst]
    rcases List.mem_cons.mp hm with hfa | hfr
    · subst hfa
      exact drainLoop_preserves_nibeq rest _ fd
        (drainStep_self_nibeq st fd (hyp fd (List.mem_cons_self fd rest)))
    · refine ih _ ?_ fd hfr
      intro g hg ho
      by_cases hga : g = a
      · subst hga
        exact drainStep_self_nibeq st g (hyp g (List.mem_cons_self g rest))
      · rw [drainStep_other st a g hga] at ho ⊢
        exact hyp g (List.mem_cons_of_mem a hg) ho

/-- C6: at the end of an update-list drain, the previous status nibble
equals the current status nibble for every fd that was processed from the
UpdateList.  The hypothesis encodes the documented invariant that an fd
whose owner has been cleared was closed through `close_notify`, which
zeroes both nibbles, so its nibbles already agree. -/
theorem drain_prev_eq_curr (st : PState)
    (hown : ∀ fd ∈ st.fd_updt, (st.fdtab fd).owner = false →
      (st.fdtab fd).spec_e >>> 4 = (st.fdtab fd).spec_e &&& 15) :
    ∀ fd ∈ st.fd_updt,
      ((updateDrain st).1.fdtab fd).spec_e >>> 4 =
      ((updateDrain st).1.fdtab fd).spec_e &&& 15 := by
  intro fd hm
  have heq : (updateDrain st).1.fdtab = (drainLoop st st.fd_updt).1.fdtab := rfl
  rw [heq]
  exact drainLoop_nibeq st.fd_updt st hown fd hm

theorem drain_prev_eq_curr_witness :
    (∀ fd ∈ wC6.fd_updt, (wC6.fdtab fd).owner = false →
      (wC6.fdtab fd).spec_e >>> 4 = (wC6.fdtab fd).spec_e &&& 15) ∧
    ((updateDrain wC6).1.fdtab 2).spec_e >>> 4 =
      ((updateDrain wC6).1.fdtab 2).spec_e &&& 15 :=
  ⟨by decide, drain_prev_eq_curr wC6 (by decide) 2 (by decide)⟩

theorem drainStep_clears_flags (st : PState) (fd : Nat) :
    ((drainStep st fd).1.fdtab fd).updated = false ∧
    ((drainStep st fd).1.fdtab fd).fnew = false := by
  unfold drainStep
  dsimp only []
  split_ifs <;> simp [PState.modifyFd]

theorem drainStep_preserves_flags (st : PState) (fd fd2 : Nat)
    (h : (st.fdtab fd).updated = false ∧ (st.fdtab fd).fnew = false) :
    ((drainStep st fd2).1.fdtab fd).updated = false ∧
    ((drainStep st fd2).1.fdtab fd).fnew = false := by
  by_cases hf : fd = fd2
  · subst hf
    exact drainStep_clears_flags st fd
  · rw [drainStep_other st fd2 fd hf]
    exact h

theorem drainLoop_preserves_flags : ∀ (l : List Nat) (st : PState) (fd : Nat),
    ((st.fdtab fd).updated = false ∧ (st.fdtab fd).fnew = false) →
    ((drainLoop st l).1.fdtab fd).updated = false ∧
    ((drainLoop st l).1.fdtab fd).fnew = false := by
  intro l
  induction l with
  | nil => intro st fd h; exact h
  | cons a rest ih =>
    intro st fd h
    rw [drainLoop_cons_fst]
    exact ih _ fd (drainStep_preserves_flags st fd a h)

theorem drainLoop_clears_flags : ∀ (l : List Nat) (st : PState),
    ∀ fd ∈ l, ((drainLoop st l).1.fdtab fd).updated = false ∧
      ((drainLoop st l).1.fdtab fd).fnew = false := by
  intro l
  induction l with
  | nil => intro st fd hm; exact absurd hm (List.not_mem_nil fd)
  | cons a rest ih =>
    intro st fd hm
    rw [drainLoop_cons_fst]
    rcases List.mem_cons.mp hm with hfa | hfr
    · subst hfa
      exact drainLoop_preserves_flags rest _ fd (drainStep_clears_flags st fd)
    · exact ih _ fd hfr

/-- C9: the update-list drain clears the `updated` and `new` flags of every
fd it visits unconditionally, with no owner or nibble-equality condition,
and after the loop the UpdateList length is reset to zero. -/
theorem drain_clears_flags_unconditionally (st : PState) :
    (∀ fd ∈ st.fd_updt,
      ((updateDrain st).1.fdtab fd).updated = false ∧
      ((updateDrain st).1.fdtab fd).fnew = false) ∧
    (updateDrain st).1.fd_updt = [] := by
  constructor
  · intro fd hm
    have heq : (updateDrain st).1.fdtab = (drainLoop st st.fd_updt).1.fdtab :=
      rfl
    rw [heq]
    exact drainLoop_clears_flags st.fd_updt st fd hm
  · rfl

theorem drain_clears_flags_unconditionally_witness :
    (wC9.fdtab 3).owner = false ∧
    (wC9.fdtab 3).spec_e >>> 4 ≠ (wC9.fdtab 3).spec_e &&& 15 ∧
    ((updateDrain wC9).1.fdtab 3).updated = false ∧
    ((updateDrain wC9).1.fdtab 3).fnew = false ∧
    (updateDrain wC9).1.fd_updt = [] :=
  ⟨by decide, by decide,
   ((drain_clears_flags_unconditionally wC9).1 3 (by decide)).1,
   ((drain_clears_flags_unconditionally wC9).1 3 (by decide)).2,
   (drain_clears_flags_unconditionally wC9).2⟩

theorem releaseSpecList_not_mem (l : List Nat) (fd : Nat) (hnd : l.Nodup) :
    fd ∉ releaseSpecList l fd := by
  unfold releaseSpecList
  split_ifs with hmem
  · intro hcon
    have hidx : List.indexOf fd l < l.length := List.indexOf_lt_length.mpr hmem
    have hfd : l[List.indexOf fd l] = fd := List.getElem_indexOf hidx
    rw [List.mem_iff_getElem] at hcon
    obtain ⟨j, hj, hje⟩ := hcon
    have hj1 : j < l.length - 1 := by
      simpa [List.length_dropLast, List.length_set] using hj
    rw [List.getElem_dropLast, List.getElem_set] at hje
    split at hje
    · rename_i hij
      rw [List.getD_eq_getElem l 0 (by omega)] at hje
      have heq : l.length - 1 = List.indexOf fd l :=
        hnd.getElem_inj_iff.mp (hje.trans hfd.symm)
      omega
    · rename_i hij
      have heq : j = List.indexOf fd l :=
        hnd.getElem_inj_iff.mp (hje.trans hfd.symm)
      omega
  · exact hmem

theorem releaseSpecList_mem_other (l : List Nat) (fd g : Nat)
    (hg : g ≠ fd) : g ∈ releaseSpecList l fd ↔ g ∈ l := by
  unfold releaseSpecList
  split_ifs with hmem
  · have hidx : List.indexOf fd l < l.length := List.indexOf_lt_length.mpr hmem
    have hfd : l[List.indexOf fd l] = fd := List.getElem_indexOf hidx
    constructor
    · intro h
      rw [List.mem_iff_getElem] at h
      obtain ⟨j, hj, hje⟩ := h
      have hj1 : j < l.length - 1 := by
        simpa [List.length_dropLast, List.length_set] using hj
      rw [List.getElem_dropLast, List.getElem_set] at hje
      split at hje
      · rw [List.getD_eq_getElem l 0 (by omega)] at hje
        exact hje ▸ List.getElem_mem _
      · exact hje ▸ List.getElem_mem _
    · intro h
      rw [List.mem_iff_getElem] at h
      obtain ⟨j, hj, hje⟩ := h
      have hjne : j ≠ List.indexOf fd l := by
        intro he
        apply hg
        rw [← hje]
        subst he
        exact hfd
      by_cases hjl : j < l.length - 1
      · rw [List.mem_iff_getElem]
        refine ⟨j, by simp only [List.length_dropLast, List.length_set]; omega,
          ?_⟩
        rw [List.getElem_dropLast, List.getElem_set,
          if_neg (fun hc => hjne hc.symm)]
        exact hje
      · have hj2 : j = l.length - 1 := by omega
        have hidx1 : List.indexOf fd l < l.length - 1 := by
          have hne2 : List.indexOf fd l ≠ l.length - 1 := by
            rw [← hj2]
            exact fun hc => hjne hc.symm
          omega
        rw [List.mem_iff_getElem]
        refine ⟨List.indexOf fd l,
          by simp only [List.length_dropLast, List.length_set]; omega, ?_⟩
        rw [List.getElem_dropLast, List.getElem_set, if_pos rfl,
          List.getD_eq_getElem l 0 (by omega)]
        have hlp : l.length - 1 < l.length := by omega
        have hj3 : l[l.length - 1] = l[j] := by
          congr 1
          omega
        rw [hj3]
        exact hje
  · exact Iff.rfl

/-- C10: `close_notify` (`__fd_clo`) zeroes both status nibbles of the fd
and removes it from the SpecList, and changes nothing else: the fd's
`updated` and `new` flags, its `ev`, `owner` and `iocb` fields, every other
fd's entry, other fds' SpecList membership and the whole UpdateList are
unchanged, so an fd closed while enqueued stays in the UpdateList, and the
next drain reconciles it as a no-op (no kernel mutation, status byte left
as is). -/
theorem fd_clo_frame (st : PState) (fd : Nat)
    (hb : (st.fdtab fd).spec_e < 256)
    (hnd : st.fd_spec.Nodup) :
    ((fd_clo st fd).fdtab fd).spec_e &&& 15 = 0 ∧
    ((fd_clo st fd).fdtab fd).spec_e >>> 4 = 0 ∧
    ((fd_clo st fd).fdtab fd).updated = (st.fdtab fd).updated ∧
    ((fd_clo st fd).fdtab fd).fnew = (st.fdtab fd).fnew ∧
    ((fd_clo st fd).fdtab fd).ev = (st.fdtab fd).ev ∧
    ((fd_clo st fd).fdtab fd).owner = (st.fdtab fd).owner ∧
    ((fd_clo st fd).fdtab fd).iocb = (st.fdtab fd).iocb ∧
    (∀ i, i ≠ fd → (fd_clo st fd).fdtab i = st.fdtab i) ∧
    (fd_clo st fd).fd_updt = st.fd_updt ∧
    fd ∉ (fd_clo st fd).fd_spec ∧
    (∀ g, g ≠ fd → (g ∈ (fd_clo st fd).fd_spec ↔ g ∈ st.fd_spec)) ∧
    (drainStep (fd_clo st fd) fd).2 = none ∧
    ((drainStep (fd_clo st fd) fd).1.fdtab fd).spec_e =
      ((fd_clo st fd).fdtab fd).spec_e := by
  have hspec : ((fd_clo st fd).fdtab fd).spec_e = 0 := by
    unfold fd_clo
    dsimp only []
    rw [modifyFd_self]
    have hdiv : (st.fdtab fd).spec_e >>> 8 = 0 := by
      rw [Nat.shiftRight_eq_div_pow]
      omega
    simp [hdiv]
  have hfspec : (fd_clo st fd).fd_spec = releaseSpecList st.fd_spec fd := rfl
  have hstep2 : (drainStep (fd_clo st fd) fd).2 = none ∧
      ((drainStep (fd_clo st fd) fd).1.fdtab fd).spec_e =
        ((fd_clo st fd).fdtab fd).spec_e := by
    unfold drainStep
    dsimp only []
    rw [hspec]
    rw [if_neg (fun hc => hc.2 (by decide))]
    refine ⟨rfl, ?_⟩
    rw [modifyFd_self, hspec]
  refine ⟨?_, ?_, ?_, ?_, ?_, ?_, ?_, ?_, rfl, ?_, ?_, hstep2.1, hstep2.2⟩
  · rw [hspec]; decide
  · rw [hspec]; decide
  · unfold fd_clo; dsimp only []; rw [modifyFd_self]
  · unfold fd_clo; dsimp only []; rw [modifyFd_self]
  · unfold fd_clo; dsimp only []; rw [modifyFd_self]
  · unfold fd_clo; dsimp only []; rw [modifyFd_self]
  · unfold fd_clo; dsimp only []; rw [modifyFd_self]
  · intro i hi
    unfold fd_clo
    dsimp only []
    rw [modifyFd_other _ _ _ _ hi]
  · rw [hfspec]
    exact releaseSpecList_not_mem st.fd_spec fd hnd
  · intro g hg
    rw [hfspec]
    exact releaseSpecList_mem_other st.fd_spec fd g hg

theorem fd_clo_frame_witness :
    (wC10.fdtab 9).spec_e < 256 ∧ wC10.fd_spec.Nodup ∧
    ((fd_clo wC10 9).fdtab 9).spec_e &&& 15 = 0 ∧
    ((fd_clo wC10 9).fdtab 9).updated = (wC10.fdtab 9).updated ∧
    (fd_clo wC10 9).fd_updt = wC10.fd_updt ∧
    (drainStep (fd_clo wC10 9) 9).2 = none :=
  ⟨by decide, by decide,
   (fd_clo_frame wC10 9 (by decide) (by decide)).1,
   (fd_clo_frame wC10 9 (by decide) (by decide)).2.2.1,
   (fd_clo_frame wC10 9 (by decide) (by decide)).2.2.2.2.2.2.2.2.1,
   (fd_clo_frame wC10 9 (by decide) (by decide)).2.2.2.2.2.2.2.2.2.2.2.1⟩
